import Mathlib

/-!
Verification of the sandboxed file-operation engine in src/server/main.py.

Paths are modelled as lists of components (an absolute path is the list of
its parts).  Two models are developed:

* `PathGuard` embeds the security utilities `is_safe_path` / `get_safe_path`
  (src/server/main.py:76-89).  `Path.resolve()` is modelled by `resolve`,
  parameterised over a symlink table, so that symlink escapes are expressible.

* `Engine` embeds the file operations (src/server/main.py:110-513) over an
  explicit finite-map filesystem.  Operation arguments are taken to be
  already-canonical component lists, so the workspace containment check of
  `get_safe_path` becomes a list-prefix test.
-/

namespace PathGuard

/-- A symlink table: maps an (already-resolved) path to the absolute target
of the symlink at that path, or `none` when there is no symlink there. -/
def Sym : Type := List String → Option (List String)

/-- One pass of `Path.resolve()`: walk the components left to right,
normalising `.` and `..` and expanding each symlink as it is met.
The `Nat` argument is fuel; running out of fuel models the `OSError`
that CPython raises on a symlink loop (`resolve` then returns `none`,
which the caller's `except` branch turns into a rejection). -/
def resolveGo (sym : Sym) : Nat → List String → List String → Option (List String)
  | 0, _, _ => none
  | _ + 1, acc, [] => some acc
  | fuel + 1, acc, c :: rest =>
    if c = "." then resolveGo sym fuel acc rest
    else if c = ".." then resolveGo sym fuel acc.dropLast rest
    else
      match sym (acc ++ [c]) with
      | some tgt => resolveGo sym fuel [] (tgt ++ rest)
      | none => resolveGo sym fuel (acc ++ [c]) rest

/-- Model of Path(p).resolve() over the symlink table `sym`. -/
def resolve (sym : Sym) (p : List String) : Option (List String) :=
  resolveGo sym ((p.length + 41) * (p.length + 41)) [] p

/-- Model of PurePath.is_relative_to on resolved absolute paths: the workspace's
components must be a prefix of the target's components. -/
def is_relative_to (target ws : List String) : Bool :=
  ws.isPrefixOf target

/-- src/server/main.py:76-83: resolve the workspace and the candidate and
test containment; any exception during resolution yields `False`. -/
def is_safe_path (sym : Sym) (path ws : List String) : Bool :=
  match resolve sym ws, resolve sym path with
  | some w, some t => is_relative_to t w
  | _, _ => false

/-- src/server/main.py:85-89: raise `ValueError` (here: `none`) unless
`is_safe_path`, otherwise return the resolved candidate. -/
def get_safe_path (sym : Sym) (path ws : List String) : Option (List String) :=
  if is_safe_path sym path ws then resolve sym path else none

/-- A concrete symlink table with one symlink `root/link -> /outside`,
i.e. a symlink lying inside the workspace whose target is outside it. -/
def symEx : Sym := fun p => if p = ["root", "link"] then some (["outside"]) else none

theorem is_safe_path_some {sym : Sym} {p ws w t : List String}
    (h1 : resolve sym ws = some w) (h2 : resolve sym p = some t) :
    is_safe_path sym p ws = is_relative_to t w := by
  unfold is_safe_path
  rw [h1, h2]

theorem is_safe_path_ws_none {sym : Sym} {p ws : List String}
    (h : resolve sym ws = none) : is_safe_path sym p ws = false := by
  unfold is_safe_path
  rw [h]

theorem is_safe_path_p_none {sym : Sym} {p ws : List String}
    (h : resolve sym p = none) : is_safe_path sym p ws = false := by
  unfold is_safe_path
  rw [h]
  cases resolve sym ws <;> rfl

/-- C1: `is_safe_path` accepts a candidate path iff both the workspace and
the candidate canonicalize successfully and the canonical candidate equals
the canonical workspace or is a proper descendant of it; `get_safe_path`
succeeds exactly when `is_safe_path` accepts; and in particular a symlink
inside the root pointing outside the root (`symEx`) is rejected even though
the raw path lies inside the root lexically. -/
theorem path_guard_characterization :
    (∀ (sym : Sym) (p ws : List String), is_safe_path sym p ws = true ↔
      ∃ rp rw, resolve sym p = some rp ∧ resolve sym ws = some rw ∧
        (rp = rw ∨ (rw <+: rp ∧ rw ≠ rp))) ∧
    (∀ (sym : Sym) (p ws : List String),
      (get_safe_path sym p ws).isSome = is_safe_path sym p ws) ∧
    (symEx (["root", "link"]) = some (["outside"]) ∧
      List.isPrefixOf (["root"]) (["root", "link"]) = true ∧
      is_safe_path symEx (["root", "link"]) (["root"]) = false ∧
      get_safe_path symEx (["root", "link"]) (["root"]) = none) := by
  refine ⟨?_, ?_, by decide, by decide, ?_, ?_⟩
  · intro sym p ws
    rcases hw : resolve sym ws with _ | w
    · rw [is_safe_path_ws_none hw]
      simp [hw]
    · rcases hp : resolve sym p with _ | t
      · rw [is_safe_path_p_none hp]
        simp [hp]
      · rw [is_safe_path_some hw hp]
        simp only [hp, hw, Option.some.injEq]
        unfold is_relative_to
        rw [List.isPrefixOf_iff_prefix]
        constructor
        · intro hpre
          by_cases he : t = w
          · exact ⟨t, w, rfl, rfl, Or.inl he⟩
          · exact ⟨t, w, rfl, rfl, Or.inr ⟨hpre, fun hh => he hh.symm⟩⟩
        · rintro ⟨rp, rw', hrp, hrw, he | ⟨hpre, _⟩⟩
          · cases hrp
            cases hrw
            exact he ▸ List.prefix_refl w
          · cases hrp
            cases hrw
            exact hpre
  · intro sym p ws
    unfold get_safe_path
    by_cases h : is_safe_path sym p ws = true
    · rw [if_pos h, h]
      rcases hp : resolve sym p with _ | t
      · rw [is_safe_path_p_none hp] at h
        cases h
      · rfl
    · rw [Bool.not_eq_true] at h
      rw [h]
      simp
  · decide
  · decide

end PathGuard

namespace Engine

/-- A canonical absolute path, as its list of components. -/
abbrev PathC := List String

/-- The contents and metadata of one regular file.  `readable` is false when
opening the file raises (`PermissionError` and friends); `mtime` models
`st_mtime`. -/
structure FileData where
  content : List Char
  readable : Bool
  mtime : Nat
deriving DecidableEq

/-- A filesystem node: a regular file or a directory. -/
inductive Node where
  | file (d : FileData)
  | dir (mtime : Nat)
deriving DecidableEq

/-- The filesystem: a finite map from canonical paths to nodes. -/
abbrev FS := List (PathC × Node)

def FS.lookup (fs : FS) (p : PathC) : Option Node :=
  match fs.find? (fun kn => decide (kn.1 = p)) with
  | some kn => some kn.2
  | none => none

def FS.insert (fs : FS) (p : PathC) (n : Node) : FS :=
  (p, n) :: fs.filter (fun kn => decide (kn.1 ≠ p))

def isFileN : Node → Bool
  | Node.file _ => true
  | Node.dir _ => false

def isDirN : Node → Bool
  | Node.file _ => false
  | Node.dir _ => true

def isFileAt (fs : FS) (p : PathC) : Bool :=
  match FS.lookup fs p with
  | some n => isFileN n
  | none => false

def isDirAt (fs : FS) (p : PathC) : Bool :=
  match FS.lookup fs p with
  | some n => isDirN n
  | none => false

/-- Length in bytes of one character under UTF-8. -/
def utf8Len (c : Char) : Nat :=
  if c.toNat < 128 then 1
  else if c.toNat < 2048 then 2
  else if c.toNat < 65536 then 3
  else 4

/-- The st_size of a text file: the byte length of its encoded content. -/
def byteSize (cs : List Char) : Nat :=
  (cs.map utf8Len).sum

/-- Universal-newline translation applied by `open(..., 'r')` (newline=None):
both "\r\n" and a lone "\r" are read back as "\n".  Writing with
`open(..., 'w')` is the identity on this platform (os.linesep = "\n"). -/
def univNewlines : List Char → List Char
  | [] => []
  | [c] => if c = '\r' then ['\n'] else [c]
  | c :: c2 :: rest =>
    if c = '\r' then
      if c2 = '\n' then '\n' :: univNewlines rest
      else '\n' :: univNewlines (c2 :: rest)
    else c :: univNewlines (c2 :: rest)

/-- Render a component path for use inside error-message strings. -/
def joinP : PathC → String
  | [] => ""
  | [c] => c
  | c :: rest => c ++ "/" ++ joinP rest

/-- Model of path.relative_to(workspace). -/
def relTo (ws p : PathC) : PathC :=
  p.drop ws.length

/-- Model of Path(p).name: the final component. -/
def lastComp (p : PathC) : String :=
  p.getLastD ("")

/-- Model of s.lower(), as a character list (String.toLower does not reduce). -/
def lowerStr (s : String) : List Char :=
  s.toList.map Char.toLower

/-- Python's substring test `q in s` on character lists. -/
def containsSub (q : List Char) : List Char → Bool
  | [] => q.isEmpty
  | c :: rest => q.isPrefixOf (c :: rest) || containsSub q rest

/-- Model of the hidden-file test name.startswith with a dot argument. -/
def startsWithDot (nm : String) : Bool :=
  match nm.toList with
  | '.' :: _ => true
  | _ => false

/-- Ambient effects consumed by the operations: the SHA-256 digest function
(kept abstract; only its use is verified) and the current `time.time()` /
timestamp used for backup names and new nodes. -/
structure Sys where
  hash : List Char → String
  now : Nat

/-- The policy flags of `Config` consumed by the operations
(src/server/main.py:26-38). -/
structure Config where
  workspace_dir : PathC
  max_file_size : Nat
  enable_checksums : Bool
  auto_backup : Bool
  backup_dir : PathC
deriving DecidableEq

/-- A raised Python exception, carrying `str(e)`. -/
structure PyErr where
  msg : String
deriving DecidableEq

/-- The uniform result of one operation: a success payload or the
`{"error": ...}` dictionary. -/
inductive OpRes (α : Type) where
  | ok (val : α)
  | err (msg : String)
deriving DecidableEq

def OpRes.isOk {α : Type} : OpRes α → Bool
  | OpRes.ok _ => true
  | OpRes.err _ => false

/-- The `try ... except Exception as e: return {"error": str(e)}` wrapper
shared by every operation: an exception raised by the body becomes an
error result, with the filesystem as it was at entry (no modelled
primitive mutates the filesystem before raising). -/
def runOp {α : Type} (r : Except PyErr (OpRes α × FS)) (fs : FS) : OpRes α × FS :=
  match r with
  | Except.ok rfs => rfs
  | Except.error e => (OpRes.err e.msg, fs)

/-- src/server/main.py:85-89 under the Engine's canonical-path model:
the containment check is a component-prefix test; failure raises
`ValueError`. -/
def get_safe_path (p ws : PathC) : Except PyErr PathC :=
  if ws.isPrefixOf p then Except.ok p
  else Except.error ⟨"Path " ++ joinP p ++ " is outside workspace " ++ joinP ws⟩

/-- src/server/main.py:110-119: `calculate_checksum` returns `None` when
checksums are disabled, and swallows every exception (missing file,
directory target, unreadable file) into `None`. -/
def calculate_checksum (sys : Sys) (cfg : Config) (fs : FS) (p : PathC) : Option String :=
  if ¬ cfg.enable_checksums then none
  else
    match FS.lookup fs p with
    | some (Node.file d) => if d.readable then some (sys.hash d.content) else none
    | _ => none

/-- Walk the ancestor chain of a path for `mkdir(parents=True)`: an existing
directory is kept (that is all `exist_ok=True` forgives), an existing
regular file raises `FileExistsError` / `NotADirectoryError`, and a missing
component is created as a directory. -/
def mkdirsGo (now : Nat) (fs : FS) : List PathC → Except PyErr FS
  | [] => Except.ok fs
  | pre :: rest =>
    match FS.lookup fs pre with
    | some (Node.dir _) => mkdirsGo now fs rest
    | some (Node.file _) => Except.error ⟨"File exists: " ++ joinP pre⟩
    | none => mkdirsGo now ((pre, Node.dir now) :: fs) rest

/-- Model of Path.mkdir(parents=True, exist_ok=True) on `q`: create every
missing component of `q` as a directory, raising when a component already
exists as a regular file (`exist_ok` only forgives existing directories). -/
def mkdirs (now : Nat) (q : PathC) (fs : FS) : Except PyErr FS :=
  mkdirsGo now fs ((List.range q.length).map (fun i => q.take (i + 1)))

/-- Model of Path.mkdir(exist_ok=True) without `parents`, as used on the
backup directory (src/server/main.py:98): an existing directory is fine, an
existing file raises `FileExistsError`, a missing parent raises
`FileNotFoundError`. -/
def mkdirOne (now : Nat) (q : PathC) (fs : FS) : Except PyErr FS :=
  match FS.lookup fs q with
  | some (Node.dir _) => Except.ok fs
  | some (Node.file _) => Except.error ⟨"File exists: " ++ joinP q⟩
  | none =>
    if isDirAt fs q.dropLast then Except.ok ((q, Node.dir now) :: fs)
    else Except.error ⟨"No such file or directory: " ++ joinP q⟩

/-- src/server/main.py:91-108: `create_backup` (the module-level function).
Returns the backup path on success, `None` when backups are disabled or any
step of the try-block (the backup-dir mkdir or the copy) fails.  Note that
`delete_file` and `write_file` never actually reach this function: their
boolean parameter of the same name shadows it. -/
def create_backup (sys : Sys) (cfg : Config) (fs : FS) (p : PathC) : Option PathC × FS :=
  if ¬ cfg.auto_backup then (none, fs)
  else
    match mkdirOne sys.now cfg.backup_dir fs with
    | Except.error _ => (none, fs)
    | Except.ok fs1 =>
      let bpath := cfg.backup_dir ++ [lastComp p ++ "_" ++ toString sys.now]
      match FS.lookup fs1 p with
      | some (Node.file d) =>
        if d.readable then (some bpath, FS.insert fs1 bpath (Node.file d))
        else (none, fs1)
      | _ => (none, fs1)

/-- One entry of a directory listing (src/server/main.py:149-157). -/
structure ItemInfo where
  name : String
  path : PathC
  type : String
  size : Nat
  modified : Nat
  checksum : Option String
deriving DecidableEq

/-- The sort key of src/server/main.py:164: ascending in the pair
`(type, name)` under code-point string order. -/
def itemLe (a b : ItemInfo) : Prop :=
  a.type.toList < b.type.toList ∨ (a.type = b.type ∧ a.name.toList ≤ b.name.toList)

instance : DecidableRel itemLe := fun a b =>
  inferInstanceAs (Decidable (a.type.toList < b.type.toList ∨
    (a.type = b.type ∧ a.name.toList ≤ b.name.toList)))

/-- The immediate children of directory `d`, with their names. -/
def childNames (fs : FS) (d : PathC) : List (String × Node) :=
  fs.filterMap (fun kn =>
    if kn.1.take d.length = d then
      match kn.1.drop d.length with
      | [nm] => some (nm, kn.2)
      | _ => none
    else none)

/-- The `item_info` dictionary built for one child of a listed directory. -/
def mkItem (sys : Sys) (cfg : Config) (fs : FS) (sp : PathC) (nm : String) (n : Node) :
    ItemInfo :=
  { name := nm
    path := relTo cfg.workspace_dir (sp ++ [nm])
    type := match n with | Node.dir _ => "directory" | Node.file _ => "file"
    size := match n with | Node.file d => byteSize d.content | Node.dir _ => 0
    modified := match n with | Node.file d => d.mtime | Node.dir m => m
    checksum := match n with
      | Node.file _ => calculate_checksum sys cfg fs (sp ++ [nm])
      | Node.dir _ => none }

/-- The loop of src/server/main.py:144-162: the `item_info` entries built
for the children of `safe_path`, after the hidden-file and type filters. -/
def listItems (sys : Sys) (cfg : Config) (fs : FS) (safe_path : PathC)
    (show_hidden : Bool) (file_type : String) : List ItemInfo :=
  (childNames fs safe_path).filterMap (fun nmn =>
    if ¬ show_hidden ∧ startsWithDot nmn.1 then none
    else
      let info := mkItem sys cfg fs safe_path nmn.1 nmn.2
      if file_type = "all" ∨ (file_type = "files" ∧ isFileN nmn.2 = true)
          ∨ (file_type = "directories" ∧ isDirN nmn.2 = true) then
        some info
      else none)

/-- src/server/main.py:122-168 (`list_files`), before the catch-all handler. -/
def list_files_body (sys : Sys) (cfg : Config) (fs : FS) (directory : PathC)
    (show_hidden : Bool) (file_type : String) :
    Except PyErr (OpRes (List ItemInfo) × FS) := do
  let safe_path ← get_safe_path directory cfg.workspace_dir
  if (FS.lookup fs safe_path).isNone then
    return (OpRes.err ("Directory " ++ joinP directory ++ " does not exist"), fs)
  else if ¬ isDirAt fs safe_path then
    return (OpRes.err (joinP directory ++ " is not a directory"), fs)
  else
    return (OpRes.ok
      (List.insertionSort itemLe (listItems sys cfg fs safe_path show_hidden file_type)), fs)

/-- The operation list_files with its catch-all exception handler. -/
def list_files (sys : Sys) (cfg : Config) (fs : FS) (directory : PathC)
    (show_hidden : Bool) (file_type : String) : OpRes (List ItemInfo) × FS :=
  runOp (list_files_body sys cfg fs directory show_hidden file_type) fs

/-- The success payload of `read_file` (src/server/main.py:207-214). -/
structure ReadOk where
  content : List Char
  size : Nat
  encoding : String
  checksum : Option String
  modified : Nat
deriving DecidableEq

/-- src/server/main.py:170-220 (`read_file`), before the catch-all handler. -/
def read_file_body (sys : Sys) (cfg : Config) (fs : FS) (file_path : PathC)
    (encoding : String) : Except PyErr (OpRes ReadOk × FS) := do
  let safe_path ← get_safe_path file_path cfg.workspace_dir
  match FS.lookup fs safe_path with
  | none => return (OpRes.err ("File " ++ joinP file_path ++ " does not exist"), fs)
  | some (Node.dir _) => return (OpRes.err (joinP file_path ++ " is not a file"), fs)
  | some (Node.file d) =>
    let file_size := byteSize d.content
    if file_size > cfg.max_file_size then
      return (OpRes.err ("File too large (" ++ toString file_size ++ " bytes > "
        ++ toString cfg.max_file_size ++ " bytes)"), fs)
    else
      let encoding := if encoding = "auto" then "utf-8" else encoding
      if ¬ d.readable then
        throw ⟨"Permission denied"⟩
      else
        return (OpRes.ok
          { content := univNewlines d.content
            size := file_size
            encoding := encoding
            checksum := calculate_checksum sys cfg fs safe_path
            modified := d.mtime }, fs)

def read_file (sys : Sys) (cfg : Config) (fs : FS) (file_path : PathC)
    (encoding : String) : OpRes ReadOk × FS :=
  runOp (read_file_body sys cfg fs file_path encoding) fs

/-- The success payload of `write_file` (src/server/main.py:250-257). -/
structure WriteOk where
  path : PathC
  size : Nat
  encoding : String
  backup_path : Option PathC
  checksum : Option String
deriving DecidableEq

/-- src/server/main.py:222-261 (`write_file`), before the catch-all handler. -/
def write_file_body (sys : Sys) (cfg : Config) (fs : FS) (file_path : PathC)
    (content : List Char) (encoding : String) (create_backup_flag : Bool) :
    Except PyErr (OpRes WriteOk × FS) := do
  let safe_path ← get_safe_path file_path cfg.workspace_dir
  -- src/server/main.py:241-242: `if safe_path.exists() and create_backup:`
  -- then `backup_path = create_backup(str(safe_path))`.  The boolean
  -- parameter `create_backup` shadows the module-level function of the same
  -- name, so the call raises `TypeError: 'bool' object is not callable`.
  if (FS.lookup fs safe_path).isSome ∧ create_backup_flag then
    throw ⟨"'bool' object is not callable"⟩
  else
    let fs1 ← mkdirs sys.now safe_path.dropLast fs
    let fs2 := FS.insert fs1 safe_path (Node.file ⟨content, true, sys.now⟩)
    return (OpRes.ok
      { path := relTo cfg.workspace_dir safe_path
        size := byteSize content
        encoding := encoding
        backup_path := none
        checksum := calculate_checksum sys cfg fs2 safe_path }, fs2)

def write_file (sys : Sys) (cfg : Config) (fs : FS) (file_path : PathC)
    (content : List Char) (encoding : String) (create_backup_flag : Bool) :
    OpRes WriteOk × FS :=
  runOp (write_file_body sys cfg fs file_path content encoding create_backup_flag) fs

/-- The success payload of `delete_file` (src/server/main.py:291-296). -/
structure DeleteOk where
  path : PathC
  backup_path : Option PathC
  type : String
deriving DecidableEq

/-- Model of shutil.rmtree: remove the subtree rooted at `p`. -/
def rmtree (p : PathC) (fs : FS) : FS :=
  fs.filter (fun kn => !(p.isPrefixOf kn.1))

/-- Model of Path.unlink: remove the single entry at `p`. -/
def unlink (p : PathC) (fs : FS) : FS :=
  fs.filter (fun kn => decide (kn.1 ≠ p))

/-- src/server/main.py:263-300 (`delete_file`), before the catch-all handler.
There is no confirmation parameter of any kind: the operation acts as soon
as the path checks pass. -/
def delete_file_body (sys : Sys) (cfg : Config) (fs : FS) (file_path : PathC)
    (create_backup_flag : Bool) : Except PyErr (OpRes DeleteOk × FS) := do
  let safe_path ← get_safe_path file_path cfg.workspace_dir
  if (FS.lookup fs safe_path).isNone then
    return (OpRes.err ("Path " ++ joinP file_path ++ " does not exist"), fs)
  -- src/server/main.py:283-284: `if safe_path.is_file() and create_backup:`
  -- then `backup_path = create_backup(str(safe_path))` — as in write_file,
  -- the boolean parameter shadows the backup function and the call raises.
  else if isFileAt fs safe_path ∧ create_backup_flag then
    throw ⟨"'bool' object is not callable"⟩
  else
    let fs2 := if isDirAt fs safe_path then rmtree safe_path fs else unlink safe_path fs
    -- src/server/main.py:295: the "type" field re-stats the path after the
    -- deletion, so is_dir() is false and the field is always "file".
    return (OpRes.ok
      { path := relTo cfg.workspace_dir safe_path
        backup_path := none
        type := if isDirAt fs2 safe_path then "directory" else "file" }, fs2)

def delete_file (sys : Sys) (cfg : Config) (fs : FS) (file_path : PathC)
    (create_backup_flag : Bool) : OpRes DeleteOk × FS :=
  runOp (delete_file_body sys cfg fs file_path create_backup_flag) fs

/-- The success payload of `copy_file` (src/server/main.py:331-337). -/
structure CopyOk where
  source : PathC
  destination : PathC
  type : String
  size : Nat
deriving DecidableEq

/-- Model of shutil.copytree / recursive copy: every entry under `src` is copied to
the corresponding path under `dst` (existing entries replaced, matching
`dirs_exist_ok` merging). -/
def copytree (src dst : PathC) (fs : FS) : FS :=
  fs.foldl (fun acc kn =>
    if src.isPrefixOf kn.1 then FS.insert acc (dst ++ kn.1.drop src.length) kn.2 else acc) fs

/-- src/server/main.py:302-341 (`copy_file`), before the catch-all handler. -/
def copy_file_body (sys : Sys) (cfg : Config) (fs : FS)
    (source_path destination_path : PathC) (overwrite : Bool) :
    Except PyErr (OpRes CopyOk × FS) := do
  let safe_source ← get_safe_path source_path cfg.workspace_dir
  let safe_dest ← get_safe_path destination_path cfg.workspace_dir
  if (FS.lookup fs safe_source).isNone then
    return (OpRes.err ("Source " ++ joinP source_path ++ " does not exist"), fs)
  else if (FS.lookup fs safe_dest).isSome ∧ ¬ overwrite then
    return (OpRes.err ("Destination " ++ joinP destination_path ++ " already exists"), fs)
  else if isDirAt fs safe_source then
    let fs2 := copytree safe_source safe_dest fs
    return (OpRes.ok
      { source := relTo cfg.workspace_dir safe_source
        destination := relTo cfg.workspace_dir safe_dest
        type := "directory"
        size := 0 }, fs2)
  else
    let fs1 ← mkdirs sys.now safe_dest.dropLast fs
    match FS.lookup fs1 safe_source with
    | some (Node.file d) =>
      if ¬ d.readable then throw ⟨"Permission denied"⟩
      else
        let fs2 := FS.insert fs1 safe_dest (Node.file d)
        return (OpRes.ok
          { source := relTo cfg.workspace_dir safe_source
            destination := relTo cfg.workspace_dir safe_dest
            type := "file"
            size := byteSize d.content }, fs2)
    | _ => throw ⟨"No such file or directory"⟩

def copy_file (sys : Sys) (cfg : Config) (fs : FS)
    (source_path destination_path : PathC) (overwrite : Bool) : OpRes CopyOk × FS :=
  runOp (copy_file_body sys cfg fs source_path destination_path overwrite) fs

/-- The success payload of `move_file` (src/server/main.py:368-373). -/
structure MoveOk where
  source : PathC
  destination : PathC
  type : String
deriving DecidableEq

/-- Model of shutil.move as a rename of the whole subtree rooted at `src`. -/
def moveTree (src dst : PathC) (fs : FS) : FS :=
  fs.filter (fun kn => !(src.isPrefixOf kn.1)) ++
    fs.filterMap (fun kn =>
      if src.isPrefixOf kn.1 then some (dst ++ kn.1.drop src.length, kn.2) else none)

/-- src/server/main.py:343-377 (`move_file`), before the catch-all handler. -/
def move_file_body (sys : Sys) (cfg : Config) (fs : FS)
    (source_path destination_path : PathC) (overwrite : Bool) :
    Except PyErr (OpRes MoveOk × FS) := do
  let safe_source ← get_safe_path source_path cfg.workspace_dir
  let safe_dest ← get_safe_path destination_path cfg.workspace_dir
  if (FS.lookup fs safe_source).isNone then
    return (OpRes.err ("Source " ++ joinP source_path ++ " does not exist"), fs)
  else if (FS.lookup fs safe_dest).isSome ∧ ¬ overwrite then
    return (OpRes.err ("Destination " ++ joinP destination_path ++ " already exists"), fs)
  else
    -- shutil.move places the source inside an existing destination directory.
    let real_dest := if isDirAt fs safe_dest then safe_dest ++ [lastComp safe_source]
      else safe_dest
    let fs2 := moveTree safe_source real_dest fs
    -- src/server/main.py:370-372: "source" echoes the raw argument and
    -- "type" re-stats the destination after the move.
    return (OpRes.ok
      { source := source_path
        destination := relTo cfg.workspace_dir safe_dest
        type := if isDirAt fs2 safe_dest then "directory" else "file" }, fs2)

def move_file (sys : Sys) (cfg : Config) (fs : FS)
    (source_path destination_path : PathC) (overwrite : Bool) : OpRes MoveOk × FS :=
  runOp (move_file_body sys cfg fs source_path destination_path overwrite) fs

/-- The success payload of `create_directory` (src/server/main.py:399-403). -/
structure MkdirOk where
  path : PathC
  created : Bool
deriving DecidableEq

/-- src/server/main.py:379-407 (`create_directory`), before the catch-all
handler.  `mkdir(parents=False)` with a missing parent raises
`FileNotFoundError`. -/
def create_directory_body (sys : Sys) (cfg : Config) (fs : FS)
    (directory_path : PathC) (create_parents : Bool) :
    Except PyErr (OpRes MkdirOk × FS) := do
  let safe_path ← get_safe_path directory_path cfg.workspace_dir
  if (FS.lookup fs safe_path).isSome then
    return (OpRes.err ("Directory " ++ joinP directory_path ++ " already exists"), fs)
  else if create_parents then
    let fs2 ← mkdirs sys.now safe_path fs
    return (OpRes.ok { path := relTo cfg.workspace_dir safe_path, created := true }, fs2)
  else
    match FS.lookup fs safe_path.dropLast with
    | some (Node.dir _) =>
      return (OpRes.ok { path := relTo cfg.workspace_dir safe_path, created := true },
        FS.insert fs safe_path (Node.dir sys.now))
    | some (Node.file _) => throw ⟨"Not a directory: " ++ joinP safe_path.dropLast⟩
    | none => throw ⟨"No such file or directory: " ++ joinP safe_path⟩

def create_directory (sys : Sys) (cfg : Config) (fs : FS)
    (directory_path : PathC) (create_parents : Bool) : OpRes MkdirOk × FS :=
  runOp (create_directory_body sys cfg fs directory_path create_parents) fs

/-- The payload of `get_file_info` (src/server/main.py:490-503); directory
sizes are modelled as 0, and the uid/gid/permission fields, which no claim
mentions, are omitted. -/
structure InfoOk where
  name : String
  path : PathC
  absolute_path : PathC
  type : String
  size : Nat
  modified : Nat
  checksum : Option String
deriving DecidableEq

/-- src/server/main.py:471-513 (`get_file_info`), before the catch-all
handler. -/
def get_file_info_body (sys : Sys) (cfg : Config) (fs : FS) (file_path : PathC) :
    Except PyErr (OpRes InfoOk × FS) := do
  let safe_path ← get_safe_path file_path cfg.workspace_dir
  match FS.lookup fs safe_path with
  | none => return (OpRes.err ("Path " ++ joinP file_path ++ " does not exist"), fs)
  | some n =>
    return (OpRes.ok
      { name := lastComp safe_path
        path := relTo cfg.workspace_dir safe_path
        absolute_path := safe_path
        type := match n with | Node.dir _ => "directory" | Node.file _ => "file"
        size := match n with | Node.file d => byteSize d.content | Node.dir _ => 0
        modified := match n with | Node.file d => d.mtime | Node.dir m => m
        checksum := match n with
          | Node.file _ => calculate_checksum sys cfg fs safe_path
          | Node.dir _ => none }, fs)

def get_file_info (sys : Sys) (cfg : Config) (fs : FS) (file_path : PathC) :
    OpRes InfoOk × FS :=
  runOp (get_file_info_body sys cfg fs file_path) fs

/-- One search result (src/server/main.py:440-447 and 454-461). -/
structure SearchEntry where
  path : PathC
  name : String
  size : Nat
  modified : Nat
  match_type : String
  checksum : Option String
deriving DecidableEq

/-- The sort key of src/server/main.py:465: ascending file name. -/
def nameLe (a b : SearchEntry) : Prop :=
  a.name.toList ≤ b.name.toList

instance : DecidableRel nameLe := fun a b =>
  inferInstanceAs (Decidable (a.name.toList ≤ b.name.toList))

/-- Index of the last '.' in a name, for `PurePath.suffix`. -/
def lastDotIdx (cs : List Char) : Option Nat :=
  (List.range cs.length).foldl
    (fun acc i => if cs.getD i (' ') = '.' then some i else acc) none

/-- Model of PurePath.suffix: the final extension, empty unless the last dot is
strictly inside the name. -/
def suffixOf (nm : String) : List Char :=
  let cs := nm.toList
  match lastDotIdx cs with
  | some i => if 0 < i ∧ i + 1 < cs.length then cs.drop i else []
  | none => []

def isSpaceC (c : Char) : Bool :=
  c = ' ' || c = '\t' || c = '\n' || c = '\r'

/-- Python `str.strip()`. -/
def stripC (cs : List Char) : List Char :=
  ((cs.dropWhile isSpaceC).reverse.dropWhile isSpaceC).reverse

/-- Python `str.split(',')`. -/
def splitCommaGo (cur : List Char) : List Char → List (List Char)
  | [] => [cur.reverse]
  | c :: rest =>
    if c = ',' then cur.reverse :: splitCommaGo [] rest
    else splitCommaGo (c :: cur) rest

/-- src/server/main.py:429: parse the comma-separated extension filter. -/
def parseExts (s : String) : List (List Char) :=
  (splitCommaGo [] s.toList).filterMap (fun e =>
    let t := stripC e
    if t.isEmpty then none else some (t.map Char.toLower))

/-- Select one filesystem entry when it is a regular file strictly below
`sp` (the files visited by `rglob("*")` that pass `is_file()`). -/
def fileSel (sp : PathC) (kn : PathC × Node) : Option (PathC × FileData) :=
  if sp.isPrefixOf kn.1 ∧ kn.1 ≠ sp then
    match kn.2 with
    | Node.file d => some (kn.1, d)
    | Node.dir _ => none
  else none

/-- The regular files strictly below `sp` visited by `rglob("*")`. -/
def filesUnder (fs : FS) (sp : PathC) : List (PathC × FileData) :=
  fs.filterMap (fileSel sp)

/-- The loop body of src/server/main.py:432-463 for one visited file:
extension filter, then filename match, `elif` content match (only when
requested and the file is strictly below the size limit; unreadable
files are skipped by the inner `except`). -/
def matchFile (sys : Sys) (cfg : Config) (fs : FS) (query : String)
    (search_content : Bool) (extensions : List (List Char))
    (kd : PathC × FileData) : List SearchEntry :=
  let nm := lastComp kd.1
  if extensions ≠ [] ∧ ¬ ((suffixOf nm).map Char.toLower) ∈ extensions then []
  else if containsSub (lowerStr query) (lowerStr nm) then
    [{ path := relTo cfg.workspace_dir kd.1
       name := nm
       size := byteSize kd.2.content
       modified := kd.2.mtime
       match_type := "filename"
       checksum := calculate_checksum sys cfg fs kd.1 }]
  else if search_content ∧ byteSize kd.2.content < cfg.max_file_size then
    if kd.2.readable ∧ containsSub (lowerStr query)
        ((univNewlines kd.2.content).map Char.toLower) then
      [{ path := relTo cfg.workspace_dir kd.1
         name := nm
         size := byteSize kd.2.content
         modified := kd.2.mtime
         match_type := "content"
         checksum := calculate_checksum sys cfg fs kd.1 }]
    else []
  else []

/-- src/server/main.py:409-469 (`search_files`), before the catch-all
handler. -/
def search_files_body (sys : Sys) (cfg : Config) (fs : FS) (query : String)
    (directory : PathC) (search_content : Bool) (file_extensions : String) :
    Except PyErr (OpRes (List SearchEntry) × FS) := do
  let safe_path ← get_safe_path directory cfg.workspace_dir
  if (FS.lookup fs safe_path).isNone ∨ ¬ isDirAt fs safe_path then
    return (OpRes.err ("Directory " ++ joinP directory ++ " does not exist"), fs)
  else
    let extensions := parseExts file_extensions
    let results := (filesUnder fs safe_path).flatMap
      (matchFile sys cfg fs query search_content extensions)
    return (OpRes.ok (List.insertionSort nameLe results), fs)

def search_files (sys : Sys) (cfg : Config) (fs : FS) (query : String)
    (directory : PathC) (search_content : Bool) (file_extensions : String) :
    OpRes (List SearchEntry) × FS :=
  runOp (search_files_body sys cfg fs query directory search_content file_extensions) fs

/-! Concrete fixtures used by the scenario theorems and witnesses. -/

def sysX : Sys := { hash := fun _ => "h", now := 7 }

def cfgX : Config :=
  { workspace_dir := ["w"]
    max_file_size := 3
    enable_checksums := true
    auto_backup := true
    backup_dir := ["w", ".backups"] }

def fsX : FS := [(["w"], Node.dir 0)]

def fsA : FS := [(["w"], Node.dir 0), (["w", "a.txt"], Node.file ⟨['h', 'i'], true, 0⟩)]

def fsD : FS :=
  [(["w"], Node.dir 0), (["w", "d"], Node.dir 1),
    (["w", "d", "x"], Node.file ⟨['q'], true, 2⟩)]

def fsAB : FS :=
  [(["w"], Node.dir 0), (["w", "a.txt"], Node.file ⟨['h'], true, 0⟩),
    (["w", "b.txt"], Node.file ⟨['o'], true, 0⟩)]

def fsBig : FS :=
  [(["w"], Node.dir 0), (["w", "big"], Node.file ⟨['a', 'b', 'c', 'd'], true, 0⟩)]

def fsEq : FS :=
  [(["w"], Node.dir 0), (["w", "ok"], Node.file ⟨['a', 'b', 'c'], true, 0⟩)]

/-- The content of a read result, when it succeeded. -/
def contentOf : OpRes ReadOk → Option (List Char)
  | OpRes.ok r => some r.content
  | OpRes.err _ => none

/-- C2: `delete_file` has no confirmation parameter of any kind; deleting an
existing directory proceeds immediately and removes the whole subtree, and
no "confirmation required" result exists anywhere in the operation — so a
delete invoked without any confirmation mutates the filesystem instead of
returning a confirmation-required value. -/
theorem delete_without_confirmation_proceeds :
    delete_file sysX cfgX fsD (["w", "d"]) true =
      (OpRes.ok { path := ["d"], backup_path := none, type := "file" },
        [(["w"], Node.dir 0)]) ∧
    FS.lookup ((delete_file sysX cfgX fsD (["w", "d"]) true).snd) (["w", "d"]) = none := by
  exact ⟨by decide, by decide⟩

/-- C3: with backup-on-delete enabled and a regular readable file present, a
delete with the backup flag set does NOT remove the file and creates NO
backup: the boolean parameter `create_backup` shadows the backup function,
the call raises `TypeError`, and the operation returns an error with the
filesystem unchanged. -/
theorem delete_backup_shadowing_failure :
    delete_file sysX cfgX fsA (["w", "a.txt"]) true =
      (OpRes.err ("'bool' object is not callable"), fsA) := by
  decide

/-- C4 counterexample: writing a fresh in-workspace file whose content holds
a lone carriage return and reading it back under the same encoding returns
a different string: universal-newline translation turns "\r" into "\n". -/
theorem write_read_carriage_return_cex :
    contentOf ((read_file sysX cfgX
        ((write_file sysX cfgX fsX (["w", "c.txt"]) (['x', '\r']) ("utf-8") true).snd)
        (["w", "c.txt"]) ("utf-8")).fst) = some (['x', '\n']) ∧
    (['x', '\n'] : List Char) ≠ ['x', '\r'] := by
  exact ⟨by decide, by decide⟩

/-- C5 counterexample: one byte over the limit the error message reports the
raw byte counts ("4 bytes > 3 bytes"); it contains no one-decimal-place
base-1024 unit rendering (no ".0" anywhere), contradicting the claimed
"B/KB/MB/GB/TB with one decimal place" format. -/
theorem too_large_message_raw_bytes_cex :
    read_file sysX cfgX fsBig (["w", "big"]) ("utf-8") =
      (OpRes.err ("File too large (4 bytes > 3 bytes)"), fsBig) ∧
    containsSub (String.toList (".0"))
      (String.toList ("File too large (4 bytes > 3 bytes)")) = false := by
  exact ⟨by decide, by decide⟩

theorem get_safe_path_ok {p ws : PathC} (h : ws.isPrefixOf p = true) :
    get_safe_path p ws = Except.ok p := by
  unfold get_safe_path
  rw [h]
  rfl

theorem FS.lookup_insert (fs : FS) (p : PathC) (n : Node) :
    FS.lookup (FS.insert fs p n) p = some n := by
  unfold FS.insert FS.lookup
  simp [List.find?]

theorem univNewlines_of_no_cr : ∀ cs : List Char, ('\r') ∉ cs → univNewlines cs = cs
  | [], _ => rfl
  | [c], h => by
    have hc : c ≠ '\r' := fun hh => h (hh ▸ List.mem_singleton_self c)
    unfold univNewlines
    rw [if_neg hc]
  | c :: c2 :: rest, h => by
    have hc : c ≠ '\r' := fun hh => h (hh ▸ List.mem_cons_self c (c2 :: rest))
    have h2 : ('\r') ∉ c2 :: rest := fun hm => h (List.mem_cons_of_mem c hm)
    unfold univNewlines
    rw [if_neg hc, univNewlines_of_no_cr (c2 :: rest) h2]

/-- C5 (amended): a file whose byte size equals `max_file_size` is read
successfully, and a file one byte over the limit fails with the raw-byte
"File too large (N bytes > M bytes)" message, the filesystem untouched. -/
theorem read_size_boundary (sys : Sys) (cfg : Config) (fs : FS) (p : PathC) (d : FileData)
    (hin : cfg.workspace_dir.isPrefixOf p = true)
    (hf : FS.lookup fs p = some (Node.file d))
    (hr : d.readable = true) :
    (byteSize d.content = cfg.max_file_size →
      read_file sys cfg fs p ("utf-8") =
        (OpRes.ok
          { content := univNewlines d.content
            size := byteSize d.content
            encoding := "utf-8"
            checksum := calculate_checksum sys cfg fs p
            modified := d.mtime }, fs)) ∧
    (byteSize d.content = cfg.max_file_size + 1 →
      read_file sys cfg fs p ("utf-8") =
        (OpRes.err ("File too large (" ++ toString (byteSize d.content) ++ " bytes > "
          ++ toString cfg.max_file_size ++ " bytes)"), fs)) := by
  have hgs : get_safe_path p cfg.workspace_dir = Except.ok p := get_safe_path_ok hin
  constructor
  · intro hsz
    unfold read_file read_file_body
    rw [hgs]
    simp only [bind, Except.bind, hf, hr]
    rw [if_neg (by rw [hsz]; exact lt_irrefl _)]
    simp [runOp, pure, Except.pure]
  · intro hsz
    unfold read_file read_file_body
    rw [hgs]
    simp only [bind, Except.bind, hf]
    rw [if_pos (by rw [hsz]; exact Nat.lt_succ_self _)]
    simp [runOp, pure, Except.pure]

/-- C5 witness: on a concrete 3-byte file with a 3-byte limit the read
succeeds with the file's exact content. -/
theorem read_size_boundary_witness :
    read_file sysX cfgX fsEq (["w", "ok"]) ("utf-8") =
      (OpRes.ok
        { content := univNewlines (['a', 'b', 'c'])
          size := byteSize (['a', 'b', 'c'])
          encoding := "utf-8"
          checksum := calculate_checksum sysX cfgX fsEq (["w", "ok"])
          modified := 0 }, fsEq) :=
  (read_size_boundary sysX cfgX fsEq (["w", "ok"]) ⟨['a', 'b', 'c'], true, 0⟩
    (by decide) (by decide) (by decide)).1 (by decide)

/-- C6: when the destination already exists and overwrite is false,
`move_file` returns the "already exists" error and the filesystem — hence
both the source file and the destination file — is completely unchanged. -/
theorem move_no_overwrite_guard (sys : Sys) (cfg : Config) (fs : FS)
    (src dst : PathC) (d1 d2 : FileData)
    (hs : cfg.workspace_dir.isPrefixOf src = true)
    (hd : cfg.workspace_dir.isPrefixOf dst = true)
    (h1 : FS.lookup fs src = some (Node.file d1))
    (h2 : FS.lookup fs dst = some (Node.file d2)) :
    move_file sys cfg fs src dst false =
      (OpRes.err ("Destination " ++ joinP dst ++ " already exists"), fs) := by
  unfold move_file move_file_body
  rw [get_safe_path_ok hs, get_safe_path_ok hd]
  simp [bind, Except.bind, h1, h2, runOp, pure, Except.pure]

/-- C6 witness: the guard fires on two concrete existing files. -/
theorem move_no_overwrite_guard_witness :
    move_file sysX cfgX fsAB (["w", "a.txt"]) (["w", "b.txt"]) false =
      (OpRes.err ("Destination " ++ joinP (["w", "b.txt"]) ++ " already exists"), fsAB) :=
  move_no_overwrite_guard sysX cfgX fsAB (["w", "a.txt"]) (["w", "b.txt"])
    ⟨['h'], true, 0⟩ ⟨['o'], true, 0⟩ (by decide) (by decide) (by decide) (by decide)

/-- C4 (amended): for any in-workspace path and any content string free of
carriage returns whose encoded size is within `max_file_size`, if the write
reports success then reading the path back under the same encoding returns
exactly the original content. -/
theorem write_read_roundtrip_no_cr (sys : Sys) (cfg : Config) (fs : FS) (p : PathC)
    (content : List Char) (encoding : String) (r : WriteOk) (fs2 : FS)
    (hw : write_file sys cfg fs p content encoding true = (OpRes.ok r, fs2))
    (hnocr : ('\r') ∉ content)
    (hsz : byteSize content ≤ cfg.max_file_size) :
    contentOf ((read_file sys cfg fs2 p encoding).fst) = some content := by
  unfold write_file write_file_body at hw
  by_cases hpre : cfg.workspace_dir.isPrefixOf p = true
  · rw [get_safe_path_ok hpre] at hw
    simp only [bind, Except.bind] at hw
    rcases hfresh : FS.lookup fs p with _ | n
    · rw [hfresh] at hw
      rw [if_neg (fun hc => absurd hc.1 (by decide))] at hw
      rcases hmk : mkdirs sys.now p.dropLast fs with e | fs1
      · rw [hmk] at hw
        simp only [Except.bind] at hw
        exact absurd (congrArg Prod.fst hw) (fun hh => OpRes.noConfusion hh)
      · rw [hmk] at hw
        simp only [Except.bind, pure, Except.pure, runOp] at hw
        have hfs2 : FS.insert fs1 p (Node.file ⟨content, true, sys.now⟩) = fs2 :=
          congrArg Prod.snd hw
        rw [← hfs2]
        unfold read_file read_file_body
        rw [get_safe_path_ok hpre]
        simp only [bind, Except.bind, FS.lookup_insert]
        rw [if_neg (Nat.not_lt.mpr hsz)]
        simp [runOp, pure, Except.pure, contentOf, univNewlines_of_no_cr content hnocr]
    · rw [hfresh] at hw
      rw [if_pos ⟨rfl, trivial⟩] at hw
      exact absurd (congrArg Prod.fst hw) (fun hh => OpRes.noConfusion hh)
  · unfold get_safe_path at hw
    rw [if_neg hpre] at hw
    simp only [bind, Except.bind, runOp] at hw
    exact absurd (congrArg Prod.fst hw) (fun hh => OpRes.noConfusion hh)

/-- C4 witness: a concrete carriage-return-free write that succeeds, followed
by a read, returns the content unchanged. -/
theorem write_read_roundtrip_witness :
    contentOf ((read_file sysX cfgX
        ((write_file sysX cfgX fsX (["w", "r.txt"]) (['h', 'i']) ("utf-8") true).snd)
        (["w", "r.txt"]) ("utf-8")).fst) = some (['h', 'i']) :=
  write_read_roundtrip_no_cr sysX cfgX fsX (["w", "r.txt"]) (['h', 'i']) ("utf-8")
    { path := ["r.txt"]
      size := 2
      encoding := "utf-8"
      backup_path := none
      checksum := some ("h") }
    ((write_file sysX cfgX fsX (["w", "r.txt"]) (['h', 'i']) ("utf-8") true).snd)
    (by decide) (by decide) (by decide)

theorem runOp_total {α : Type} (r : Except PyErr (OpRes α × FS)) (fs : FS) :
    (∃ v fs2, runOp r fs = (OpRes.ok v, fs2)) ∨
      ∃ m fs2, runOp r fs = (OpRes.err m, fs2) := by
  rcases r with e | ⟨res, fs2⟩
  · exact Or.inr ⟨e.msg, fs, rfl⟩
  · rcases res with v | m
    · exact Or.inl ⟨v, fs2, rfl⟩
    · exact Or.inr ⟨m, fs2, rfl⟩

theorem runOp_of_error {α : Type} {r : Except PyErr (OpRes α × FS)} {e : PyErr}
    (fs : FS) (h : r = Except.error e) : runOp r fs = (OpRes.err e.msg, fs) := by
  rw [h]
  rfl

/-- C7: every file operation is total and structured: whatever the inputs
and filesystem, it returns either a success payload or an error entry, and
any exception raised inside an operation body is converted by the
surrounding catch-all handler into an error result carrying the exception
message instead of propagating to the caller. -/
theorem operations_return_structured_results :
    (∀ sys cfg fs p b e, delete_file_body sys cfg fs p b = Except.error e →
      delete_file sys cfg fs p b = (OpRes.err e.msg, fs)) ∧
    (∀ sys cfg fs dir sh ft e, list_files_body sys cfg fs dir sh ft = Except.error e →
      list_files sys cfg fs dir sh ft = (OpRes.err e.msg, fs)) ∧
    (∀ sys cfg fs p enc e, read_file_body sys cfg fs p enc = Except.error e →
      read_file sys cfg fs p enc = (OpRes.err e.msg, fs)) ∧
    (∀ sys cfg fs p c enc b e, write_file_body sys cfg fs p c enc b = Except.error e →
      write_file sys cfg fs p c enc b = (OpRes.err e.msg, fs)) ∧
    (∀ sys cfg fs s t b e, copy_file_body sys cfg fs s t b = Except.error e →
      copy_file sys cfg fs s t b = (OpRes.err e.msg, fs)) ∧
    (∀ sys cfg fs s t b e, move_file_body sys cfg fs s t b = Except.error e →
      move_file sys cfg fs s t b = (OpRes.err e.msg, fs)) ∧
    (∀ sys cfg fs p b e, create_directory_body sys cfg fs p b = Except.error e →
      create_directory sys cfg fs p b = (OpRes.err e.msg, fs)) ∧
    (∀ sys cfg fs q dir sc fe e, search_files_body sys cfg fs q dir sc fe = Except.error e →
      search_files sys cfg fs q dir sc fe = (OpRes.err e.msg, fs)) ∧
    (∀ sys cfg fs p e, get_file_info_body sys cfg fs p = Except.error e →
      get_file_info sys cfg fs p = (OpRes.err e.msg, fs)) ∧
    (∀ sys cfg fs dir sh ft,
      (∃ v fs2, list_files sys cfg fs dir sh ft = (OpRes.ok v, fs2)) ∨
        ∃ m fs2, list_files sys cfg fs dir sh ft = (OpRes.err m, fs2)) ∧
    (∀ sys cfg fs p enc,
      (∃ v fs2, read_file sys cfg fs p enc = (OpRes.ok v, fs2)) ∨
        ∃ m fs2, read_file sys cfg fs p enc = (OpRes.err m, fs2)) ∧
    (∀ sys cfg fs p c enc b,
      (∃ v fs2, write_file sys cfg fs p c enc b = (OpRes.ok v, fs2)) ∨
        ∃ m fs2, write_file sys cfg fs p c enc b = (OpRes.err m, fs2)) ∧
    (∀ sys cfg fs p b,
      (∃ v fs2, delete_file sys cfg fs p b = (OpRes.ok v, fs2)) ∨
        ∃ m fs2, delete_file sys cfg fs p b = (OpRes.err m, fs2)) ∧
    (∀ sys cfg fs s t b,
      (∃ v fs2, copy_file sys cfg fs s t b = (OpRes.ok v, fs2)) ∨
        ∃ m fs2, copy_file sys cfg fs s t b = (OpRes.err m, fs2)) ∧
    (∀ sys cfg fs s t b,
      (∃ v fs2, move_file sys cfg fs s t b = (OpRes.ok v, fs2)) ∨
        ∃ m fs2, move_file sys cfg fs s t b = (OpRes.err m, fs2)) ∧
    (∀ sys cfg fs p b,
      (∃ v fs2, create_directory sys cfg fs p b = (OpRes.ok v, fs2)) ∨
        ∃ m fs2, create_directory sys cfg fs p b = (OpRes.err m, fs2)) ∧
    (∀ sys cfg fs q dir sc fe,
      (∃ v fs2, search_files sys cfg fs q dir sc fe = (OpRes.ok v, fs2)) ∨
        ∃ m fs2, search_files sys cfg fs q dir sc fe = (OpRes.err m, fs2)) ∧
    (∀ sys cfg fs p,
      (∃ v fs2, get_file_info sys cfg fs p = (OpRes.ok v, fs2)) ∨
        ∃ m fs2, get_file_info sys cfg fs p = (OpRes.err m, fs2)) := by
  refine ⟨?_, ?_, ?_, ?_, ?_, ?_, ?_, ?_, ?_, ?_, ?_, ?_, ?_, ?_, ?_, ?_, ?_, ?_⟩
  · intro sys cfg fs p b e h
    exact runOp_of_error fs h
  · intro sys cfg fs dir sh ft e h
    exact runOp_of_error fs h
  · intro sys cfg fs p enc e h
    exact runOp_of_error fs h
  · intro sys cfg fs p c enc b e h
    exact runOp_of_error fs h
  · intro sys cfg fs s t b e h
    exact runOp_of_error fs h
  · intro sys cfg fs s t b e h
    exact runOp_of_error fs h
  · intro sys cfg fs p b e h
    exact runOp_of_error fs h
  · intro sys cfg fs q dir sc fe e h
    exact runOp_of_error fs h
  · intro sys cfg fs p e h
    exact runOp_of_error fs h
  · intro sys cfg fs dir sh ft
    exact runOp_total _ fs
  · intro sys cfg fs p enc
    exact runOp_total _ fs
  · intro sys cfg fs p c enc b
    exact runOp_total _ fs
  · intro sys cfg fs p b
    exact runOp_total _ fs
  · intro sys cfg fs s t b
    exact runOp_total _ fs
  · intro sys cfg fs s t b
    exact runOp_total _ fs
  · intro sys cfg fs p b
    exact runOp_total _ fs
  · intro sys cfg fs q dir sc fe
    exact runOp_total _ fs
  · intro sys cfg fs p
    exact runOp_total _ fs

/-- C7 witness: a concrete raised exception (the `ValueError` of a path
outside the workspace) surfaces as an error result, not as a fault. -/
theorem operations_structured_witness :
    delete_file sysX cfgX fsX (["z"]) true =
      (OpRes.err ("Path z is outside workspace w"), fsX) :=
  operations_return_structured_results.1 sysX cfgX fsX (["z"]) true
    ⟨"Path z is outside workspace w"⟩ rfl

def itemsOf : OpRes (List ItemInfo) → List ItemInfo
  | OpRes.ok l => l
  | OpRes.err _ => []

theorem list_files_dir_eq (sys : Sys) (cfg : Config) (fs : FS) (dir : PathC)
    (sh : Bool) (ft : String) (m : Nat)
    (hin : cfg.workspace_dir.isPrefixOf dir = true)
    (hdir : FS.lookup fs dir = some (Node.dir m)) :
    list_files sys cfg fs dir sh ft =
      (OpRes.ok (List.insertionSort itemLe (listItems sys cfg fs dir sh ft)), fs) := by
  unfold list_files list_files_body
  rw [get_safe_path_ok hin]
  simp [bind, Except.bind, hdir, isDirAt, isDirN, runOp, pure, Except.pure]

theorem mem_listItems_dir_checksum {sys : Sys} {cfg : Config} {fs : FS} {sp : PathC}
    {sh : Bool} {ft : String} {e : ItemInfo}
    (he : e ∈ listItems sys cfg fs sp sh ft) (ht : e.type = "directory") :
    e.checksum = none := by
  unfold listItems at he
  rcases List.mem_filterMap.mp he with ⟨nmn, _, heq⟩
  dsimp only at heq
  by_cases h1 : (¬ sh ∧ startsWithDot nmn.1)
  · rw [if_pos h1] at heq
    cases heq
  · rw [if_neg h1] at heq
    by_cases h2 : (ft = "all" ∨ (ft = "files" ∧ isFileN nmn.2 = true)
        ∨ (ft = "directories" ∧ isDirN nmn.2 = true))
    · rw [if_pos h2] at heq
      have he2 : mkItem sys cfg fs sp nmn.1 nmn.2 = e := Option.some.inj heq
      rcases hn : nmn.2 with d | mm
      · rw [← he2, hn] at ht
        simp only [mkItem] at ht
        exact absurd ht (by decide)
      · rw [← he2, hn]
        simp [mkItem]
    · rw [if_neg h2] at heq
      cases heq

theorem calculate_checksum_disabled (sys : Sys) (cfg : Config) (fs : FS) (p : PathC)
    (h : cfg.enable_checksums = false) : calculate_checksum sys cfg fs p = none := by
  simp [calculate_checksum, h]

theorem calculate_checksum_unreadable (sys : Sys) (cfg : Config) (fs : FS) (p : PathC)
    (d : FileData) (hf : FS.lookup fs p = some (Node.file d)) (hr : d.readable = false) :
    calculate_checksum sys cfg fs p = none := by
  cases hE : cfg.enable_checksums <;> simp [calculate_checksum, hE, hf, hr]

theorem calculate_checksum_dir (sys : Sys) (cfg : Config) (fs : FS) (p : PathC)
    (m : Nat) (hf : FS.lookup fs p = some (Node.dir m)) :
    calculate_checksum sys cfg fs p = none := by
  cases hE : cfg.enable_checksums <;> simp [calculate_checksum, hE, hf]

theorem str_toList_inj {s t : String} (h : s.toList = t.toList) : s = t := by
  cases s with
  | mk d1 =>
    cases t with
    | mk d2 =>
      have hd : d1 = d2 := h
      rw [hd]

instance : IsTotal ItemInfo itemLe := ⟨by
  intro a b
  rcases lt_trichotomy a.type.toList b.type.toList with h | h | h
  · exact Or.inl (Or.inl h)
  · have he : a.type = b.type := str_toList_inj h
    rcases le_total a.name.toList b.name.toList with hn | hn
    · exact Or.inl (Or.inr ⟨he, hn⟩)
    · exact Or.inr (Or.inr ⟨he.symm, hn⟩)
  · exact Or.inr (Or.inl h)⟩

instance : IsTrans ItemInfo itemLe := ⟨by
  intro a b c hab hbc
  rcases hab with h1 | ⟨e1, n1⟩
  · rcases hbc with h2 | ⟨e2, n2⟩
    · exact Or.inl (lt_trans h1 h2)
    · exact Or.inl (by rw [← e2]; exact h1)
  · rcases hbc with h2 | ⟨e2, n2⟩
    · exact Or.inl (by rw [e1]; exact h2)
    · exact Or.inr ⟨e1.trans e2, le_trans n1 n2⟩⟩

/-- C9: the list returned by a successful `list_files` is sorted by the pair
(type, name); consequently no "file" entry ever precedes a "directory"
entry, and entries of equal type appear in ascending name order. -/
theorem list_files_sorted_by_type_name (sys : Sys) (cfg : Config) (fs : FS)
    (dir : PathC) (sh : Bool) (ft : String) (items : List ItemInfo) (fs2 : FS)
    (h : list_files sys cfg fs dir sh ft = (OpRes.ok items, fs2)) :
    List.Sorted itemLe items ∧
    items.Pairwise (fun a b =>
      ¬ (a.type = "file" ∧ b.type = "directory") ∧
      (a.type = b.type → a.name.toList ≤ b.name.toList)) := by
  unfold list_files list_files_body runOp at h
  rcases hgs : get_safe_path dir cfg.workspace_dir with e | sp
  all_goals rw [hgs] at h
  all_goals simp only [bind, Except.bind, pure, Except.pure] at h
  · exact absurd (congrArg Prod.fst h) (fun hh => OpRes.noConfusion hh)
  · by_cases h1 : (FS.lookup fs sp).isNone = true
    · rw [if_pos h1] at h
      exact absurd (congrArg Prod.fst h) (fun hh => OpRes.noConfusion hh)
    · rw [if_neg h1] at h
      by_cases h2 : ¬ isDirAt fs sp = true
      · rw [if_pos h2] at h
        exact absurd (congrArg Prod.fst h) (fun hh => OpRes.noConfusion hh)
      · rw [if_neg h2] at h
        have h3 : OpRes.ok (List.insertionSort itemLe (listItems sys cfg fs sp sh ft)) =
            OpRes.ok items := congrArg Prod.fst h
        injection h3 with h4
        have hs : List.Sorted itemLe items := by
          rw [← h4]
          exact List.sorted_insertionSort itemLe _
        refine ⟨hs, List.Pairwise.imp ?_ hs⟩
        intro a b hab
        constructor
        · rintro ⟨ha, hb⟩
          rcases hab with hlt | ⟨he, _⟩
          · rw [ha, hb] at hlt
            exact absurd hlt (by decide)
          · rw [ha, hb] at he
            exact absurd he (by decide)
        · intro he
          rcases hab with hlt | ⟨_, hn⟩
          · rw [he] at hlt
            exact absurd hlt (lt_irrefl _)
          · exact hn

def fsMix : FS :=
  [(["w"], Node.dir 0),
    (["w", "b.txt"], Node.file ⟨['b'], true, 3⟩),
    (["w", "sub"], Node.dir 4),
    (["w", "a.txt"], Node.file ⟨['a'], true, 5⟩)]

/-- C9 witness: on a concrete mixed directory the listing is sorted with the
subdirectory first and the files in ascending name order. -/
theorem list_files_sorted_witness :
    List.Sorted itemLe
      [⟨"sub", ["sub"], "directory", 0, 4, none⟩,
        ⟨"a.txt", ["a.txt"], "file", 1, 5, some ("h")⟩,
        ⟨"b.txt", ["b.txt"], "file", 1, 3, some ("h")⟩] ∧
    List.Pairwise (fun a b : ItemInfo =>
      ¬ (a.type = "file" ∧ b.type = "directory") ∧
      (a.type = b.type → a.name.toList ≤ b.name.toList))
      [⟨"sub", ["sub"], "directory", 0, 4, none⟩,
        ⟨"a.txt", ["a.txt"], "file", 1, 5, some ("h")⟩,
        ⟨"b.txt", ["b.txt"], "file", 1, 3, some ("h")⟩] :=
  list_files_sorted_by_type_name sysX cfgX fsMix (["w"]) false ("all")
    [⟨"sub", ["sub"], "directory", 0, 4, none⟩,
      ⟨"a.txt", ["a.txt"], "file", 1, 5, some ("h")⟩,
      ⟨"b.txt", ["b.txt"], "file", 1, 3, some ("h")⟩] fsMix (by decide)


def resultsOf : OpRes (List SearchEntry) → List SearchEntry
  | OpRes.ok l => l
  | OpRes.err _ => []

theorem search_files_dir_eq (sys : Sys) (cfg : Config) (fs : FS) (query : String)
    (dir : PathC) (sc : Bool) (fe : String) (m : Nat)
    (hin : cfg.workspace_dir.isPrefixOf dir = true)
    (hdm : FS.lookup fs dir = some (Node.dir m)) :
    search_files sys cfg fs query dir sc fe =
      (OpRes.ok (List.insertionSort nameLe
        ((filesUnder fs dir).flatMap (matchFile sys cfg fs query sc (parseExts fe)))), fs) := by
  unfold search_files search_files_body
  rw [get_safe_path_ok hin]
  simp [bind, Except.bind, hdm, isDirAt, isDirN, runOp, pure, Except.pure]

theorem fileSel_key {sp : PathC} {kn : PathC × Node} {kd : PathC × FileData}
    (h : fileSel sp kn = some kd) :
    kd.1 = kn.1 ∧ kn.2 = Node.file kd.2 ∧ sp.isPrefixOf kn.1 = true ∧ kn.1 ≠ sp := by
  unfold fileSel at h
  by_cases hc : sp.isPrefixOf kn.1 = true ∧ kn.1 ≠ sp
  · rw [if_pos hc] at h
    rcases hn : kn.2 with dd | mm
    · rw [hn] at h
      have h2 := Option.some.inj h
      rw [← h2]
      exact ⟨rfl, rfl, hc.1, hc.2⟩
    · rw [hn] at h
      cases h
  · rw [if_neg hc] at h
    cases h

theorem mem_filesUnder_elim {fs : FS} {sp : PathC} {kd : PathC × FileData}
    (h : kd ∈ filesUnder fs sp) :
    sp.isPrefixOf kd.1 = true ∧ kd.1 ≠ sp ∧ (kd.1, Node.file kd.2) ∈ fs := by
  unfold filesUnder at h
  rcases List.mem_filterMap.mp h with ⟨kn, hmem, heq⟩
  rcases fileSel_key heq with ⟨hk, hn, hpre, hne⟩
  refine ⟨hk ▸ hpre, hk ▸ hne, ?_⟩
  have h2 : (kd.1, Node.file kd.2) = kn := by
    rw [hk, ← hn]
  rw [h2]
  exact hmem

theorem mem_filesUnder {fs : FS} {sp p : PathC} {d : FileData}
    (hfp : FS.lookup fs p = some (Node.file d))
    (hup : sp.isPrefixOf p = true) (hne : p ≠ sp) :
    (p, d) ∈ filesUnder fs sp := by
  unfold FS.lookup at hfp
  rcases hfind : fs.find? (fun kn => decide (kn.1 = p)) with _ | found
  · rw [hfind] at hfp
    cases hfp
  · rw [hfind] at hfp
    have h2 : found.2 = Node.file d := Option.some.inj hfp
    have hmem : found ∈ fs := List.mem_of_find?_eq_some hfind
    have hkey : found.1 = p := by simpa using List.find?_some hfind
    unfold filesUnder
    apply List.mem_filterMap.mpr
    refine ⟨found, hmem, ?_⟩
    unfold fileSel
    rw [hkey, h2]
    rw [if_pos ⟨hup, hne⟩]

theorem filesUnder_keys_sub {fs : FS} {sp : PathC} {k : PathC}
    (h : k ∈ (filesUnder fs sp).map Prod.fst) : k ∈ fs.map Prod.fst := by
  rcases List.mem_map.mp h with ⟨kd, hkd, hk⟩
  rcases mem_filesUnder_elim hkd with ⟨_, _, hmem⟩
  exact hk ▸ List.mem_map.mpr ⟨(kd.1, Node.file kd.2), hmem, rfl⟩

theorem filesUnder_keys_nodup {fs : FS} {sp : PathC}
    (h : (fs.map Prod.fst).Nodup) : ((filesUnder fs sp).map Prod.fst).Nodup := by
  induction fs with
  | nil => simp [filesUnder]
  | cons kn fs ih =>
    rw [List.map_cons, List.nodup_cons] at h
    unfold filesUnder
    rw [List.filterMap_cons]
    rcases hf : fileSel sp kn with _ | kd
    · exact ih h.2
    · rw [List.map_cons]
      refine List.nodup_cons.mpr ⟨?_, ih h.2⟩
      intro hmem
      have hk : kd.1 = kn.1 := (fileSel_key hf).1
      exact h.1 (hk ▸ filesUnder_keys_sub hmem)

theorem isPrefixOf_trans {a b c : PathC}
    (h1 : a.isPrefixOf b = true) (h2 : b.isPrefixOf c = true) :
    a.isPrefixOf c = true := by
  rw [List.isPrefixOf_iff_prefix] at h1 h2 ⊢
  exact h1.trans h2

theorem relTo_inj {ws q r : PathC}
    (hq : ws.isPrefixOf q = true) (hr : ws.isPrefixOf r = true)
    (h : relTo ws q = relTo ws r) : q = r := by
  rcases List.isPrefixOf_iff_prefix.mp hq with ⟨tq, htq⟩
  rcases List.isPrefixOf_iff_prefix.mp hr with ⟨tr, htr⟩
  unfold relTo at h
  rw [← htq, ← htr, List.drop_left, List.drop_left] at h
  rw [← htq, ← htr, h]

theorem lookup_unique {fs : FS} {p : PathC} {n : Node}
    (hnd : (fs.map Prod.fst).Nodup) (hmem : (p, n) ∈ fs) :
    FS.lookup fs p = some n := by
  induction fs with
  | nil => cases hmem
  | cons kn fs ih =>
    rw [List.map_cons, List.nodup_cons] at hnd
    rcases List.mem_cons.mp hmem with he | hm
    · rw [← he]
      unfold FS.lookup
      simp [List.find?]
    · have hne : ¬ (kn.1 = p) := by
        intro hh
        exact hnd.1 (hh ▸ List.mem_map.mpr ⟨(p, n), hm, rfl⟩)
      have hstep : FS.lookup (kn :: fs) p = FS.lookup fs p := by
        unfold FS.lookup
        rw [List.find?_cons]
        simp [decide_eq_false hne]
      rw [hstep]
      exact ih hnd.2 hm

theorem countP_flatMap_custom {α β : Type} (pr : β → Bool) (f : α → List β) :
    ∀ L : List α, (L.flatMap f).countP pr = (L.map (fun a => (f a).countP pr)).sum
  | [] => rfl
  | a :: L => by
    rw [List.flatMap_cons, List.countP_append, List.map_cons, List.sum_cons,
      countP_flatMap_custom pr f L]

theorem sum_single {d : FileData} (g : PathC × FileData → Nat) (p : PathC) :
    ∀ L : List (PathC × FileData), (L.map Prod.fst).Nodup → (p, d) ∈ L →
      (∀ kd ∈ L, kd.1 ≠ p → g kd = 0) →
      (L.map g).sum = g (p, d)
  | [], _, hmem, _ => by cases hmem
  | kd :: L, hnd, hmem, hz => by
    rw [List.map_cons, List.nodup_cons] at hnd
    by_cases hk : kd.1 = p
    · have hkd : kd = (p, d) := by
        rcases List.mem_cons.mp hmem with he | hm
        · exact he.symm
        · exfalso
          apply hnd.1
          rw [hk]
          exact List.mem_map.mpr ⟨(p, d), hm, rfl⟩
      have hz2 : (L.map g).sum = 0 := by
        apply List.sum_eq_zero
        intro x hx
        rcases List.mem_map.mp hx with ⟨kd2, hkd2, hxe⟩
        rw [← hxe]
        apply hz kd2 (List.mem_cons_of_mem _ hkd2)
        intro hh
        apply hnd.1
        rw [hk, ← hh]
        exact List.mem_map.mpr ⟨kd2, hkd2, rfl⟩
      rw [List.map_cons, List.sum_cons, hkd, hz2, Nat.add_zero]
    · have hm : (p, d) ∈ L := by
        rcases List.mem_cons.mp hmem with he | hm
        · exact absurd (by rw [← he] : kd.1 = p) hk
        · exact hm
      rw [List.map_cons, List.sum_cons, hz kd (List.mem_cons_self _ _) hk,
        sum_single g p L hnd.2 hm (fun kd2 h2 => hz kd2 (List.mem_cons_of_mem _ h2)),
        Nat.zero_add]

theorem matchFile_of_name (sys : Sys) (cfg : Config) (fs : FS) (query : String)
    (sc : Bool) (exts : List (List Char)) (kd : PathC × FileData)
    (hext : ¬ (exts ≠ [] ∧ ¬ ((suffixOf (lastComp kd.1)).map Char.toLower) ∈ exts))
    (hname : containsSub (lowerStr query) (lowerStr (lastComp kd.1)) = true) :
    matchFile sys cfg fs query sc exts kd =
      [{ path := relTo cfg.workspace_dir kd.1
         name := lastComp kd.1
         size := byteSize kd.2.content
         modified := kd.2.mtime
         match_type := "filename"
         checksum := calculate_checksum sys cfg fs kd.1 }] := by
  simp only [matchFile]
  rw [if_neg hext, if_pos hname]

theorem matchFile_entries {sys : Sys} {cfg : Config} {fs : FS} {query : String}
    {sc : Bool} {exts : List (List Char)} {kd : PathC × FileData} {e : SearchEntry}
    (he : e ∈ matchFile sys cfg fs query sc exts kd) :
    e.path = relTo cfg.workspace_dir kd.1 ∧
    e.size = byteSize kd.2.content ∧
    (e.match_type = "filename" ∨
      (e.match_type = "content" ∧ byteSize kd.2.content < cfg.max_file_size)) := by
  simp only [matchFile] at he
  by_cases h1 : (exts ≠ [] ∧ ¬ ((suffixOf (lastComp kd.1)).map Char.toLower) ∈ exts)
  · rw [if_pos h1] at he
    cases he
  · rw [if_neg h1] at he
    by_cases h2 : containsSub (lowerStr query) (lowerStr (lastComp kd.1)) = true
    · rw [if_pos h2] at he
      have he2 := List.mem_singleton.mp he
      rw [he2]
      exact ⟨rfl, rfl, Or.inl rfl⟩
    · rw [if_neg h2] at he
      by_cases h3 : (sc = true ∧ byteSize kd.2.content < cfg.max_file_size)
      · rw [if_pos h3] at he
        by_cases h4 : (kd.2.readable = true ∧ containsSub (lowerStr query)
            ((univNewlines kd.2.content).map Char.toLower) = true)
        · rw [if_pos h4] at he
          have he2 := List.mem_singleton.mp he
          rw [he2]
          exact ⟨rfl, rfl, Or.inr ⟨rfl, h3.2⟩⟩
        · rw [if_neg h4] at he
          cases he
      · rw [if_neg h3] at he
        cases he

/-- C10: in `search_files` with content search enabled, a file (passing the
extension filter) whose name matches the query is reported exactly once,
with match_type "filename" — its content is never consulted for a match and
no size restriction applies — while every match_type "content" result can
only come from a file whose size is strictly below `max_file_size`. -/
theorem search_filename_precedence (sys : Sys) (cfg : Config) (fs : FS)
    (query : String) (dir : PathC) (fe : String) (p : PathC) (d : FileData) (m : Nat)
    (hnodup : (fs.map Prod.fst).Nodup)
    (hin : cfg.workspace_dir.isPrefixOf dir = true)
    (hdm : FS.lookup fs dir = some (Node.dir m))
    (hfp : FS.lookup fs p = some (Node.file d))
    (hup : dir.isPrefixOf p = true) (hne : p ≠ dir)
    (hext : ¬ (parseExts fe ≠ [] ∧
      ¬ ((suffixOf (lastComp p)).map Char.toLower) ∈ parseExts fe)) :
    (containsSub (lowerStr query) (lowerStr (lastComp p)) = true →
      (resultsOf (search_files sys cfg fs query dir true fe).fst).countP
          (fun e => decide (e.path = relTo cfg.workspace_dir p)) = 1 ∧
      ∀ e ∈ resultsOf (search_files sys cfg fs query dir true fe).fst,
        e.path = relTo cfg.workspace_dir p → e.match_type = "filename") ∧
    (∀ e ∈ resultsOf (search_files sys cfg fs query dir true fe).fst,
      e.match_type = "content" → e.size < cfg.max_file_size) := by
  have heq := search_files_dir_eq sys cfg fs query dir true fe m hin hdm
  rw [heq]
  simp only [resultsOf]
  have hwsp : cfg.workspace_dir.isPrefixOf p = true := isPrefixOf_trans hin hup
  have hperm := List.perm_insertionSort nameLe
    ((filesUnder fs dir).flatMap (matchFile sys cfg fs query true (parseExts fe)))
  have hkd_eq : ∀ kd ∈ filesUnder fs dir, kd.1 = p → kd = (p, d) := by
    intro kd hkd hk
    rcases mem_filesUnder_elim hkd with ⟨_, _, hmemfs⟩
    have hlk := lookup_unique hnodup (hk ▸ hmemfs)
    have h2 := Option.some.inj (hfp.symm.trans hlk)
    injection h2 with h3
    cases kd with
    | mk k1 k2 =>
      simp only at hk h3
      rw [hk, ← h3]
  have hcontent : ∀ e ∈ List.insertionSort nameLe
      ((filesUnder fs dir).flatMap (matchFile sys cfg fs query true (parseExts fe))),
      e.match_type = "content" → e.size < cfg.max_file_size := by
    intro e he hm
    have he2 := hperm.mem_iff.mp he
    rcases List.mem_flatMap.mp he2 with ⟨kd, hkd, hem⟩
    rcases matchFile_entries hem with ⟨_, hsz, hor⟩
    rcases hor with hf | ⟨_, hlt⟩
    · exact absurd (hm.symm.trans hf) (by decide)
    · rw [hsz]
      exact hlt
  have hfile : ∀ e ∈ List.insertionSort nameLe
      ((filesUnder fs dir).flatMap (matchFile sys cfg fs query true (parseExts fe))),
      e.path = relTo cfg.workspace_dir p →
      containsSub (lowerStr query) (lowerStr (lastComp p)) = true →
      e.match_type = "filename" := by
    intro e he hpath hname
    have he2 := hperm.mem_iff.mp he
    rcases List.mem_flatMap.mp he2 with ⟨kd, hkd, hem⟩
    rcases matchFile_entries hem with ⟨hpe, _, _⟩
    rcases mem_filesUnder_elim hkd with ⟨hdpre, _, _⟩
    have hwkd : cfg.workspace_dir.isPrefixOf kd.1 = true := isPrefixOf_trans hin hdpre
    have hkp : kd.1 = p := relTo_inj hwkd hwsp (hpe.symm.trans hpath)
    rw [hkd_eq kd hkd hkp] at hem
    rw [matchFile_of_name sys cfg fs query true (parseExts fe) (p, d) hext hname] at hem
    have he3 := List.mem_singleton.mp hem
    rw [he3]
  have hcount : containsSub (lowerStr query) (lowerStr (lastComp p)) = true →
      (List.insertionSort nameLe
        ((filesUnder fs dir).flatMap (matchFile sys cfg fs query true (parseExts fe)))).countP
          (fun e => decide (e.path = relTo cfg.workspace_dir p)) = 1 := by
    intro hname
    rw [hperm.countP_eq]
    rw [countP_flatMap_custom]
    have hmemL := mem_filesUnder hfp hup hne
    have hndL : ((filesUnder fs dir).map Prod.fst).Nodup := filesUnder_keys_nodup hnodup
    have hz : ∀ kd ∈ filesUnder fs dir, kd.1 ≠ p →
        (matchFile sys cfg fs query true (parseExts fe) kd).countP
          (fun e => decide (e.path = relTo cfg.workspace_dir p)) = 0 := by
      intro kd hkd hknep
      apply List.countP_eq_zero.mpr
      intro e hem
      rcases matchFile_entries hem with ⟨hpe, _, _⟩
      rcases mem_filesUnder_elim hkd with ⟨hdpre, _, _⟩
      have hwkd : cfg.workspace_dir.isPrefixOf kd.1 = true := isPrefixOf_trans hin hdpre
      intro hpath
      exact hknep (relTo_inj hwkd hwsp (hpe.symm.trans (of_decide_eq_true hpath)))
    rw [sum_single _ p (filesUnder fs dir) hndL hmemL hz]
    rw [matchFile_of_name sys cfg fs query true (parseExts fe) (p, d) hext hname]
    simp [List.countP_cons]
  exact ⟨fun hname => ⟨hcount hname, fun e he hpath => hfile e he hpath hname⟩, hcontent⟩

def fsS : FS :=
  [(["w"], Node.dir 0),
    (["w", "doc.txt"], Node.file ⟨['q'], true, 1⟩),
    (["w", "other.txt"], Node.file ⟨['d', 'o', 'c'], true, 2⟩)]

/-- C10 witness: a concrete content search in which the file whose name
matches the query is reported exactly once. -/
theorem search_filename_witness :
    (resultsOf (search_files sysX cfgX fsS ("doc") (["w"]) true ("")).fst).countP
        (fun e => decide (e.path = relTo cfgX.workspace_dir (["w", "doc.txt"]))) = 1 :=
  ((search_filename_precedence sysX cfgX fsS ("doc") (["w"]) ("") (["w", "doc.txt"])
      ⟨['q'], true, 1⟩ 0 (by decide) (by decide) (by decide) (by decide) (by decide)
      (by decide) (by decide)).1 (by decide)).1

theorem matchFile_checksum {sys : Sys} {cfg : Config} {fs : FS} {query : String}
    {sc : Bool} {exts : List (List Char)} {kd : PathC × FileData} {e : SearchEntry}
    (he : e ∈ matchFile sys cfg fs query sc exts kd) :
    e.checksum = calculate_checksum sys cfg fs kd.1 := by
  simp only [matchFile] at he
  by_cases h1 : (exts ≠ [] ∧ ¬ ((suffixOf (lastComp kd.1)).map Char.toLower) ∈ exts)
  · rw [if_pos h1] at he
    cases he
  · rw [if_neg h1] at he
    by_cases h2 : containsSub (lowerStr query) (lowerStr (lastComp kd.1)) = true
    · rw [if_pos h2] at he
      rw [List.mem_singleton.mp he]
    · rw [if_neg h2] at he
      by_cases h3 : (sc = true ∧ byteSize kd.2.content < cfg.max_file_size)
      · rw [if_pos h3] at he
        by_cases h4 : (kd.2.readable = true ∧ containsSub (lowerStr query)
            ((univNewlines kd.2.content).map Char.toLower) = true)
        · rw [if_pos h4] at he
          rw [List.mem_singleton.mp he]
        · rw [if_neg h4] at he
          cases he
      · rw [if_neg h3] at he
        cases he

def fsU : FS := [(["w"], Node.dir 0), (["w", "locked"], Node.file ⟨['a'], false, 0⟩)]

/-- C8 counterexample: on an unreadable in-workspace file the checksum
degrades to `none` without raising, yet `read_file` on the same file fails
with the permission error: so on its literal reading the claim's "the
enclosing operation (read, ...) still succeeds" is false — the read fails
because the content read itself raises, independently of checksumming. -/
theorem read_unreadable_fails_cex :
    calculate_checksum sysX cfgX fsU (["w", "locked"]) = none ∧
    read_file sysX cfgX fsU (["w", "locked"]) ("utf-8") =
      (OpRes.err ("Permission denied"), fsU) :=
  ⟨by decide, by decide⟩

/-- C8 (amended): a checksum failure never fails an operation:
`calculate_checksum` returns `none` rather than raising when checksums are
disabled, when the file is unreadable, and on directories; `list_files`
still succeeds with directory entries carrying no checksum; `get_file_info`
succeeds with a `none` checksum on directories and on unreadable files;
`read_file` with checksums disabled succeeds on a readable within-limit
file with a `none` checksum; and `search_files` still succeeds, its entries
carrying no checksum when checksums are disabled.  (`read_file` on an
unreadable file fails, but from the content read, not from checksumming.) -/
theorem checksum_failure_degrades_gracefully :
    (∀ sys cfg fs p, cfg.enable_checksums = false → calculate_checksum sys cfg fs p = none) ∧
    (∀ sys cfg fs p d, FS.lookup fs p = some (Node.file d) → d.readable = false →
      calculate_checksum sys cfg fs p = none) ∧
    (∀ sys cfg fs p m, FS.lookup fs p = some (Node.dir m) →
      calculate_checksum sys cfg fs p = none) ∧
    (∀ sys cfg fs dir sh ft m, cfg.workspace_dir.isPrefixOf dir = true →
      FS.lookup fs dir = some (Node.dir m) →
      (list_files sys cfg fs dir sh ft).fst.isOk = true ∧
      ∀ e ∈ itemsOf (list_files sys cfg fs dir sh ft).fst,
        e.type = "directory" → e.checksum = none) ∧
    (∀ sys cfg fs p m, cfg.workspace_dir.isPrefixOf p = true →
      FS.lookup fs p = some (Node.dir m) →
      get_file_info sys cfg fs p =
        (OpRes.ok
          { name := lastComp p
            path := relTo cfg.workspace_dir p
            absolute_path := p
            type := "directory"
            size := 0
            modified := m
            checksum := none }, fs)) ∧
    (∀ sys cfg fs p d, cfg.workspace_dir.isPrefixOf p = true →
      FS.lookup fs p = some (Node.file d) → d.readable = false →
      get_file_info sys cfg fs p =
        (OpRes.ok
          { name := lastComp p
            path := relTo cfg.workspace_dir p
            absolute_path := p
            type := "file"
            size := byteSize d.content
            modified := d.mtime
            checksum := none }, fs)) ∧
    (∀ sys cfg fs p d, cfg.workspace_dir.isPrefixOf p = true →
      FS.lookup fs p = some (Node.file d) → d.readable = true →
      byteSize d.content ≤ cfg.max_file_size → cfg.enable_checksums = false →
      read_file sys cfg fs p ("utf-8") =
        (OpRes.ok
          { content := univNewlines d.content
            size := byteSize d.content
            encoding := "utf-8"
            checksum := none
            modified := d.mtime }, fs)) ∧
    (∀ sys cfg fs q dir sc fe m, cfg.workspace_dir.isPrefixOf dir = true →
      FS.lookup fs dir = some (Node.dir m) →
      (search_files sys cfg fs q dir sc fe).fst.isOk = true) ∧
    (∀ sys cfg fs q dir sc fe m, cfg.workspace_dir.isPrefixOf dir = true →
      FS.lookup fs dir = some (Node.dir m) → cfg.enable_checksums = false →
      ∀ e ∈ resultsOf (search_files sys cfg fs q dir sc fe).fst, e.checksum = none) := by
  refine ⟨?_, ?_, ?_, ?_, ?_, ?_, ?_, ?_, ?_⟩
  · exact calculate_checksum_disabled
  · exact calculate_checksum_unreadable
  · exact calculate_checksum_dir
  · intro sys cfg fs dir sh ft m hin hdir
    rw [list_files_dir_eq sys cfg fs dir sh ft m hin hdir]
    constructor
    · rfl
    · intro e he ht
      simp only [itemsOf] at he
      have hmem : e ∈ listItems sys cfg fs dir sh ft :=
        (List.perm_insertionSort itemLe (listItems sys cfg fs dir sh ft)).mem_iff.mp he
      exact mem_listItems_dir_checksum hmem ht
  · intro sys cfg fs p m hin hdir
    unfold get_file_info get_file_info_body
    rw [get_safe_path_ok hin]
    simp [bind, Except.bind, hdir, runOp, pure, Except.pure]
  · intro sys cfg fs p d hin hf hr
    have hcc := calculate_checksum_unreadable sys cfg fs p d hf hr
    unfold get_file_info get_file_info_body
    rw [get_safe_path_ok hin]
    simp [bind, Except.bind, hf, runOp, pure, Except.pure, hcc]
  · intro sys cfg fs p d hin hf hr hsz hdis
    have hcc := calculate_checksum_disabled sys cfg fs p hdis
    unfold read_file read_file_body
    rw [get_safe_path_ok hin]
    simp only [bind, Except.bind, hf]
    rw [if_neg (Nat.not_lt.mpr hsz)]
    simp [runOp, pure, Except.pure, hr, hcc]
  · intro sys cfg fs q dir sc fe m hin hdm
    rw [search_files_dir_eq sys cfg fs q dir sc fe m hin hdm]
    rfl
  · intro sys cfg fs q dir sc fe m hin hdm hdis e he
    rw [search_files_dir_eq sys cfg fs q dir sc fe m hin hdm] at he
    simp only [resultsOf] at he
    have he2 := (List.perm_insertionSort nameLe
      ((filesUnder fs dir).flatMap (matchFile sys cfg fs q sc (parseExts fe)))).mem_iff.mp he
    rcases List.mem_flatMap.mp he2 with ⟨kd, _, hem⟩
    rw [matchFile_checksum hem]
    exact calculate_checksum_disabled sys cfg fs kd.1 hdis

/-- C8 witness: a concrete directory listing succeeds even though its
subdirectory entry has no checksum. -/
theorem checksum_degrades_witness :
    (list_files sysX cfgX fsD (["w"]) false ("all")).fst.isOk = true :=
  (checksum_failure_degrades_gracefully.2.2.2.1 sysX cfgX fsD (["w"]) false ("all") 0
    (by decide) (by decide)).1

end Engine
